import Mathlib

/-
Verification of the route-protection core of django-magic-authorization.

The definitions below are a shallow embedding of
`src/django_magic_authorization/middleware.py` (class
`MagicAuthorizationMiddleware.__call__` and the registry it reads),
of the `AccessToken` model, and of the Django/Python library functions
the middleware calls (`RoutePattern.match`, `str.lstrip`,
`str.removeprefix`, `urllib.parse.quote`, `QueryDict.get/pop/urlencode`).
Strings are modelled as lists of characters.
-/

namespace MagicAuth

/-- Paths, tokens and templates are character lists. -/
abbrev Str := List Char

/-- Django path converters used in route templates (`<int:...>` etc.). -/
inductive Conv
  | int
  | str
  | slug
  | pathc
deriving DecidableEq

/-- Name of a converter as it appears inside `<name:param>`. -/
def convName : Conv → Str
  | .int => "int".data
  | .str => "str".data
  | .slug => "slug".data
  | .pathc => "path".data

/-- Character class of each converter's regex: `[0-9]`, `[^/]`,
`[-a-zA-Z0-9_]`, `.` (any char but newline). -/
def convOk : Conv → Char → Bool
  | .int, c => c.isDigit
  | .str, c => !(c == '/')
  | .slug, c => c.isAlphanum || c == '-' || c == '_'
  | .pathc, c => !(c == '\n')

/-- Captured parameter values after `to_python` conversion: the `int`
converter yields an integer, the others the raw string. -/
inductive Val
  | s (v : Str)
  | i (v : Int)
deriving DecidableEq

/-- Decimal reading of a digit run, as Python `int()` on the match. -/
def digitsVal (v : Str) : Int :=
  Int.ofNat (v.foldl (fun acc c => 10 * acc + (c.toNat - '0'.toNat)) 0)

/-- converter.to_python applied to the raw matched text. -/
def toPython : Conv → Str → Val
  | .int, v => .i (digitsVal v)
  | .str, v => .s v
  | .slug, v => .s v
  | .pathc, v => .s v

/-- One piece of a route template: literal text or `<conv:name>`. -/
inductive Seg
  | lit (l : Str)
  | par (cv : Conv) (nm : Str)
deriving DecidableEq

/-- Rendering of a segment back into the template string (`str(pattern)`
returns the original route text). -/
def segStr : Seg → Str
  | .lit l => l
  | .par cv nm => '<' :: (convName cv ++ ':' :: nm ++ ['>'])

/-- Greedy backtracking for one `[class]+` group: try taking `L` chars
(`L` counts down from the maximal run), then match the rest of the
pattern via the continuation `k`; mirrors regex backtracking order. -/
def tryLens (k : Str → Option (Str × List (Str × Val))) (cv : Conv) (nm : Str)
    (s : Str) : Nat → Option (Str × List (Str × Val))
  | 0 => none
  | L + 1 =>
    match k (s.drop (L + 1)) with
    | some (rem, kw) => some (rem, (nm, toPython cv (s.take (L + 1))) :: kw)
    | none => tryLens k cv nm s L

/-- Matching of a compiled route template against a path, as the regex
built by Django's `_route_to_regex`: anchored at the start, each
converter a greedy `(+)` group, and (for endpoint patterns) `\Z` at the
end. Returns the remaining path and the captured parameters. -/
def matchSegs (ep : Bool) : List Seg → Str → Option (Str × List (Str × Val))
  | [], s => if ep && !s.isEmpty then none else some (s, [])
  | .lit l :: rest, s =>
    if l.isPrefixOf s then matchSegs ep rest (s.drop l.length) else none
  | .par cv nm :: rest, s =>
    tryLens (fun s' => matchSegs ep rest s') cv nm s
      ((s.takeWhile (convOk cv)).length)

/-- django.urls.resolvers.RoutePattern: a parsed template plus the
`is_endpoint` flag (true for `path()` leaves, false for resolvers and
for `RoutePattern(route, name=None)` as built in the repo's tests). -/
structure RoutePattern where
  segs : List Seg
  endpoint : Bool
deriving DecidableEq

/-- str(pattern): the literal route template. -/
def RoutePattern.toStr (p : RoutePattern) : Str :=
  (p.segs.map segStr).flatten

/-- pattern.match(path) (args dropped: RoutePattern captures by name). -/
def RoutePattern.matchPath (p : RoutePattern) (s : Str) :
    Option (Str × List (Str × Val)) :=
  matchSegs p.endpoint p.segs s

/-- Outcome of calling a user-supplied protect function: a value whose
truthiness is `truthy`, or a raised exception. -/
inductive PredOut
  | ok (truthy : Bool)
  | exn

/-- One registry entry `(prefix, pattern, protect_fn)` registered by
`MagicAuthorizationRouter.register`. -/
structure Route where
  pfx : Str
  pat : RoutePattern
  protectFn : Option (List (Str × Val) → PredOut)

/-- Python `"...".lstrip("/")`. -/
def lstripSlash (s : Str) : Str := s.dropWhile (· == '/')

/-- Python `str.removeprefix`: drops `p` when it is a literal front of
`s` and otherwise returns `s` unchanged. -/
def removePfx (p s : Str) : Str :=
  if p.isPrefixOf s then s.drop p.length else s

/-- Python `str(pattern).endswith("/")`. -/
def endsWithSlash (s : Str) : Bool := s.getLast? == some '/'

/-- Python `remaining_path.startswith("/")`. -/
def startsWithSlash (s : Str) : Bool := s.head? == some '/'

/-- The route-scanning loop of `MagicAuthorizationMiddleware.__call__`
(middleware.py lines 106-130): for each registered route strip the
path's leading slashes, remove the route's registration prefix when
present, try `pattern.match`, apply the trailing-slash boundary rule,
then the protect function (falsy skips, an exception falls through),
and return `prefix + str(pattern)` for the first surviving route. -/
def findProtected : List Route → Str → Option Str
  | [], _ => none
  | r :: rest, path =>
    let pwp := removePfx r.pfx (lstripSlash path)
    match r.pat.matchPath pwp with
    | none => findProtected rest path
    | some (rem, kw) =>
      if !endsWithSlash r.pat.toStr && (!rem.isEmpty && !startsWithSlash rem) then
        findProtected rest path
      else
        match r.protectFn with
        | none => some (r.pfx ++ r.pat.toStr)
        | some f =>
          match f kw with
          | .ok true => some (r.pfx ++ r.pat.toStr)
          | .ok false => findProtected rest path
          | .exn => some (r.pfx ++ r.pat.toStr)

/-- models.AccessToken (timestamps and counters as integers). -/
structure AccessToken where
  descr : Str
  path : Str
  token : Str
  isValid : Bool
  expiresAt : Option Int
  maxUses : Option Int
  createdAt : Int
  timesAccessed : Int
  lastAccessed : Option Int
deriving DecidableEq

/-- The row filter of middleware.py lines 148-152: token equality,
`is_valid=True`, exact path equality, `expires_at` null or `> now`,
`max_uses` null or `> times_accessed`. -/
def tokenOk (t : AccessToken) (tok pp : Str) (now : Int) : Bool :=
  t.token == tok && t.isValid && t.path == pp
    && (match t.expiresAt with
        | none => true
        | some e => decide (now < e))
    && (match t.maxUses with
        | none => true
        | some m => decide (t.timesAccessed < m))

/-- Queryset `.exists()` on the filtered rows (the database is a row list). -/
def existsValid (db : List AccessToken) (tok pp : Str) (now : Int) : Bool :=
  db.any (fun t => tokenOk t tok pp now)

/-- The single-row stat update of middleware.py lines 158-160. -/
def bump (t : AccessToken) (now' : Int) : AccessToken :=
  { t with timesAccessed := t.timesAccessed + 1, lastAccessed := some now' }

/-- MAGIC_AUTHORIZATION settings read through `get_setting`. -/
structure Settings where
  cookiePfx : Str
  tokenParam : Str
  cookieMaxAge : Int
  cookieHttponly : Bool
  cookieSecure : Bool
  cookieSamesite : Str

/-- An incoming request: path, query pairs in order, and cookies. -/
structure Request where
  path : Str
  query : List (Str × Str)
  cookies : List (Str × Str)

/-- QueryDict.get: the last value listed for the key, if any. -/
def qdGet (q : List (Str × Str)) (k : Str) : Option Str :=
  ((q.filter (fun kv => kv.1 == k)).getLast?).map (fun kv => kv.2)

/-- Python `a or b` on an optional string: `a` when present and
non-empty (truthy), otherwise `b`. -/
def pyOr (a b : Option Str) : Option Str :=
  match a with
  | some s => if s.isEmpty then b else some s
  | none => b

/-- Uppercase hex digit. -/
def hexDig (n : Nat) : Char :=
  if n < 10 then Char.ofNat ('0'.toNat + n) else Char.ofNat ('A'.toNat + n - 10)

/-- Percent escape of one byte as uppercase hex. -/
def pctByte (b : Nat) : Str := ['%', hexDig (b / 16), hexDig (b % 16)]

/-- UTF-8 bytes of a character (as CPython encodes before quoting). -/
def utf8Bytes (c : Char) : List Nat :=
  let n := c.toNat
  if n < 0x80 then [n]
  else if n < 0x800 then [0xC0 + n / 64, 0x80 + n % 64]
  else if n < 0x10000 then
    [0xE0 + n / 4096, 0x80 + (n / 64) % 64, 0x80 + n % 64]
  else
    [0xF0 + n / 262144, 0x80 + (n / 4096) % 64, 0x80 + (n / 64) % 64, 0x80 + n % 64]

/-- The characters urllib never quotes (letters, digits, `_.-~`). -/
def alwaysSafe (c : Char) : Bool :=
  c.isAlphanum || c == '_' || c == '.' || c == '-' || c == '~'

/-- Python urllib quote with an empty safe set: every character
that is not unreserved is percent-encoded byte by byte. -/
def pyQuote (s : Str) : Str :=
  (s.map (fun c =>
    if alwaysSafe c then [c] else ((utf8Bytes c).map pctByte).flatten)).flatten

/-- Python urllib quote_plus (used by QueryDict.urlencode): like the
plain quote but encoding a space as a plus sign. -/
def quotePlus (s : Str) : Str :=
  (s.map (fun c =>
    if c == ' ' then ['+']
    else if alwaysSafe c then [c]
    else ((utf8Bytes c).map pctByte).flatten)).flatten

/-- Keys of a QueryDict in insertion order (first occurrence), the
order `lists()` iterates. -/
def qdKeysAux (seen : List Str) : List (Str × Str) → List Str
  | [] => []
  | (k, _) :: rest =>
    if seen.contains k then qdKeysAux seen rest
    else k :: qdKeysAux (k :: seen) rest

/-- Key list of a QueryDict. -/
def qdKeys (q : List (Str × Str)) : List Str := qdKeysAux [] q

/-- The `(key, value)` pairs in QueryDict iteration order: grouped by
key (keys in first-occurrence order, values in arrival order). -/
def qdPairs (q : List (Str × Str)) : List (Str × Str) :=
  ((qdKeys q).map (fun k => q.filter (fun kv => kv.1 == k))).flatten

/-- One `k=v` item of an urlencoded string. -/
def encPair (kv : Str × Str) : Str := quotePlus kv.1 ++ '=' :: quotePlus kv.2

/-- QueryDict.urlencode(). -/
def urlencodeQD (q : List (Str × Str)) : Str :=
  List.intercalate "&".data ((qdPairs q).map encPair)

/-- QueryDict pop of a key: every value for that key is removed. -/
def qdPop (q : List (Str × Str)) (k : Str) : List (Str × Str) :=
  q.filter (fun kv => !(kv.1 == k))

/-- A cookie as set by `response.set_cookie` (middleware.py 188-196). -/
structure Cookie where
  key : Str
  value : Str
  path : Str
  maxAge : Int
  httponly : Bool
  secure : Bool
  samesite : Str
deriving DecidableEq

/-- Python `protected_path.find("<")`. -/
def findLt : Str → Option Nat
  | [] => none
  | c :: rest => if c == '<' then some 0 else (findLt rest).map (· + 1)

/-- Cookie path scoping of middleware.py lines 180-185: root slash plus
the template text before the first dynamic marker, or plus the whole
template when there is none. -/
def cookiePathOf (pp : Str) : Str :=
  match findLt pp with
  | none => '/' :: pp
  | some i => '/' :: pp.take i

/-- What the middleware returns: a 403 with a denial reason, a redirect
(Location header), or the underlying handler's response. -/
inductive BaseResp
  | forbidden (reason : Str)
  | redirect (location : Str)
  | fromHandler
deriving DecidableEq

/-- A response together with the cookies the middleware set on it. -/
structure Response where
  base : BaseResp
  setCookies : List Cookie
deriving DecidableEq

/-- Denial reason strings passed to `_deny`. -/
def noTokenR : Str := "no_token".data

/-- Denial reason for a present but failing token. -/
def invalidTokenR : Str := "invalid_token".data

/-- The cookie built by `response.set_cookie(...)`. -/
def mkCookie (st : Settings) (ck tok pp : Str) : Cookie :=
  { key := ck, value := tok, path := cookiePathOf pp,
    maxAge := st.cookieMaxAge, httponly := st.cookieHttponly,
    secure := st.cookieSecure, samesite := st.cookieSamesite }

/-- middleware.py lines 136-199, once `protected_path` is known to be
truthy: derive the cookie key, pick the candidate token (query value
`or` cookie), deny without one, validate against the database, deny on
failure, otherwise bump the matched rows' stats and answer with a
token-stripping redirect (query token) or the handler's response
(cookie token), setting the scoped cookie either way. -/
def protectedStep (st : Settings) (db : List AccessToken) (req : Request)
    (now now' : Int) (pp : Str) : Response × List AccessToken :=
  let cookieKey := st.cookiePfx ++ pyQuote pp
  let queryToken := qdGet req.query st.tokenParam
  let userToken := pyOr queryToken (List.lookup cookieKey req.cookies)
  match userToken with
  | none => (⟨.forbidden noTokenR, []⟩, db)
  | some tok =>
    if !existsValid db tok pp now then (⟨.forbidden invalidTokenR, []⟩, db)
    else
      let db' := db.map (fun t => if tokenOk t tok pp now then bump t now' else t)
      let base : BaseResp :=
        match queryToken with
        | some s =>
          if s.isEmpty then .fromHandler
          else
            let rest := qdPop req.query st.tokenParam
            .redirect (req.path ++
              (if rest.isEmpty then [] else '?' :: urlencodeQD rest))
        | none => .fromHandler
      (⟨base, [mkCookie st cookieKey tok pp]⟩, db')

/-- MagicAuthorizationMiddleware.__call__: scan the registry for a
protected path (a falsy result — `None` or the empty string — passes
the request straight through to the handler), then run the token flow. -/
def middleware (reg : List Route) (st : Settings) (db : List AccessToken)
    (req : Request) (now now' : Int) : Response × List AccessToken :=
  match findProtected reg req.path with
  | none => (⟨.fromHandler, []⟩, db)
  | some pp =>
    if pp.isEmpty then (⟨.fromHandler, []⟩, db)
    else protectedStep st db req now now' pp

/-- The per-route skip condition of the scanning loop: the route
contributes nothing for this path (match failure, boundary rejection,
or falsy protect function). -/
def skipOne (r : Route) (path : Str) : Bool :=
  match r.pat.matchPath (removePfx r.pfx (lstripSlash path)) with
  | none => true
  | some (rem, kw) =>
    if !endsWithSlash r.pat.toStr && (!rem.isEmpty && !startsWithSlash rem) then
      true
    else
      match r.protectFn with
      | none => false
      | some f =>
        match f kw with
        | .ok false => true
        | _ => false

/-- A static template (one literal segment), as the repo's tests build
with `RoutePattern(route, name=None)` (is_endpoint false). -/
def litPat (l : Str) : RoutePattern := ⟨[.lit l], false⟩

/-- The default settings of settings.py (DEBUG true, as in the tests). -/
def st0 : Settings :=
  ⟨"django_magic_authorization_".data, "token".data, 31536000, true, false,
    "lax".data⟩

/-- A stored token authorizing path `protected/`, unconstrained. -/
def tok0 : AccessToken :=
  ⟨"Test token".data, "protected/".data, "abc".data, true, none, none, 0, 0, none⟩

/-- Registry protecting the static route `protected/`. -/
def reg0 : List Route := [⟨[], litPat "protected/".data, none⟩]

/-- Registry with a non-empty registration prefix (an `include("api/v1/")`). -/
def regC1 : List Route := [⟨"api/v1/".data, litPat "secret/".data, none⟩]

/-- The dynamic blog template of the repo's tests. -/
def blogPat : RoutePattern :=
  ⟨[.lit "blog/".data, .par .int "year".data, .lit "/".data,
    .par .str "slug".data, .lit "/".data], false⟩

/-- Canonical path string of `blogPat`. -/
def ppBlog : Str := "blog/<int:year>/<str:slug>/".data

/-- Registry protecting the blog template. -/
def regB : List Route := [⟨[], blogPat, none⟩]

/-- A stored token authorizing the blog template. -/
def tokB : AccessToken :=
  ⟨"Blog token".data, ppBlog, "tkB".data, true, none, none, 0, 0, none⟩

/-- On a protected (truthy) path the middleware runs the token flow. -/
theorem middleware_protected {reg : List Route} {st : Settings}
    {db : List AccessToken} {req : Request} {now now' : Int} {pp : Str}
    (hf : findProtected reg req.path = some pp) (hne : pp ≠ []) :
    middleware reg st db req now now' = protectedStep st db req now now' pp := by
  unfold middleware
  rw [hf]
  simp [hne]

/-- No candidate token at all: denial with reason no_token. -/
theorem protectedStep_noToken {st : Settings} {db : List AccessToken}
    {req : Request} {now now' : Int} {pp : Str}
    (h : pyOr (qdGet req.query st.tokenParam)
        (List.lookup (st.cookiePfx ++ pyQuote pp) req.cookies) = none) :
    protectedStep st db req now now' pp = (⟨.forbidden noTokenR, []⟩, db) := by
  simp only [protectedStep]
  rw [h]

/-- Candidate present but failing validation: denial with invalid_token. -/
theorem protectedStep_invalid {st : Settings} {db : List AccessToken}
    {req : Request} {now now' : Int} {pp tok : Str}
    (h : pyOr (qdGet req.query st.tokenParam)
        (List.lookup (st.cookiePfx ++ pyQuote pp) req.cookies) = some tok)
    (hv : existsValid db tok pp now = false) :
    protectedStep st db req now now' pp = (⟨.forbidden invalidTokenR, []⟩, db) := by
  simp only [protectedStep]
  rw [h]
  simp [hv]

/-- On a grant the database update maps the row filter over the table. -/
theorem protectedStep_grant_snd {st : Settings} {db : List AccessToken}
    {req : Request} {now now' : Int} {pp tok : Str}
    (h : pyOr (qdGet req.query st.tokenParam)
        (List.lookup (st.cookiePfx ++ pyQuote pp) req.cookies) = some tok)
    (hv : existsValid db tok pp now = true) :
    (protectedStep st db req now now' pp).2 =
      db.map (fun t => if tokenOk t tok pp now then bump t now' else t) := by
  simp only [protectedStep]
  rw [h]
  simp [hv]

/-- On a grant exactly the derived cookie is set on the response. -/
theorem protectedStep_grant_cookies {st : Settings} {db : List AccessToken}
    {req : Request} {now now' : Int} {pp tok : Str}
    (h : pyOr (qdGet req.query st.tokenParam)
        (List.lookup (st.cookiePfx ++ pyQuote pp) req.cookies) = some tok)
    (hv : existsValid db tok pp now = true) :
    (protectedStep st db req now now' pp).1.setCookies =
      [mkCookie st (st.cookiePfx ++ pyQuote pp) tok pp] := by
  simp only [protectedStep]
  rw [h]
  simp [hv]

/-- Grant via a non-empty query token: redirect stripping the token. -/
theorem protectedStep_grant_query {st : Settings} {db : List AccessToken}
    {req : Request} {now now' : Int} {pp s : Str}
    (hq : qdGet req.query st.tokenParam = some s) (hs : s ≠ [])
    (hv : existsValid db s pp now = true) :
    (protectedStep st db req now now' pp).1 =
      ⟨.redirect (req.path ++
          (if (qdPop req.query st.tokenParam).isEmpty then []
           else '?' :: urlencodeQD (qdPop req.query st.tokenParam))),
        [mkCookie st (st.cookiePfx ++ pyQuote pp) s pp]⟩ := by
  simp only [protectedStep]
  rw [hq]
  simp [pyOr, hs, hv]

/-- Grant via cookie only: the handler's response, no redirect. -/
theorem protectedStep_grant_cookie {st : Settings} {db : List AccessToken}
    {req : Request} {now now' : Int} {pp s : Str}
    (hq : qdGet req.query st.tokenParam = none)
    (hc : List.lookup (st.cookiePfx ++ pyQuote pp) req.cookies = some s)
    (hv : existsValid db s pp now = true) :
    (protectedStep st db req now now' pp).1 =
      ⟨.fromHandler, [mkCookie st (st.cookiePfx ++ pyQuote pp) s pp]⟩ := by
  simp only [protectedStep]
  rw [hq, hc]
  simp [pyOr, hv]

/-- A route whose pattern does not match is skipped. -/
theorem findProtected_skip_match {r : Route} {rest : List Route} {p : Str}
    (h : r.pat.matchPath (removePfx r.pfx (lstripSlash p)) = none) :
    findProtected (r :: rest) p = findProtected rest p := by
  simp only [findProtected]
  rw [h]

/-- A match failing the trailing-slash boundary rule is skipped. -/
theorem findProtected_skip_boundary {r : Route} {rest : List Route}
    {p rem : Str} {kw : List (Str × Val)}
    (hm : r.pat.matchPath (removePfx r.pfx (lstripSlash p)) = some (rem, kw))
    (h1 : endsWithSlash r.pat.toStr = false) (h2 : rem ≠ [])
    (h3 : startsWithSlash rem = false) :
    findProtected (r :: rest) p = findProtected rest p := by
  simp only [findProtected]
  rw [hm]
  simp [h1, h2, h3]

/-- A match passing the boundary rule on a predicate-free route wins. -/
theorem findProtected_accept {r : Route} {rest : List Route}
    {p rem : Str} {kw : List (Str × Val)}
    (hm : r.pat.matchPath (removePfx r.pfx (lstripSlash p)) = some (rem, kw))
    (hb : endsWithSlash r.pat.toStr = true ∨ rem = [] ∨ startsWithSlash rem = true)
    (hpn : r.protectFn = none) :
    findProtected (r :: rest) p = some (r.pfx ++ r.pat.toStr) := by
  simp only [findProtected]
  rw [hm]
  have hcond : (!endsWithSlash r.pat.toStr
      && (!rem.isEmpty && !startsWithSlash rem)) = false := by
    rcases hb with hb | hb | hb <;> simp [hb]
  simp [hcond, hpn]

/-- A falsy protect function skips the route. -/
theorem findProtected_pred_false {r : Route} {rest : List Route}
    {p rem : Str} {kw : List (Str × Val)}
    {f : List (Str × Val) → PredOut}
    (hpf : r.protectFn = some f)
    (hm : r.pat.matchPath (removePfx r.pfx (lstripSlash p)) = some (rem, kw))
    (hff : f kw = .ok false) :
    findProtected (r :: rest) p = findProtected rest p := by
  simp only [findProtected]
  rw [hm]
  cases hcond : (!endsWithSlash r.pat.toStr
      && (!rem.isEmpty && !startsWithSlash rem)) <;>
    simp [hcond, hpf, hff]

/-- A protect function that raises falls through: the route wins. -/
theorem findProtected_pred_exn {r : Route} {rest : List Route}
    {p rem : Str} {kw : List (Str × Val)}
    {f : List (Str × Val) → PredOut}
    (hpf : r.protectFn = some f)
    (hm : r.pat.matchPath (removePfx r.pfx (lstripSlash p)) = some (rem, kw))
    (hb : endsWithSlash r.pat.toStr = true ∨ rem = [] ∨ startsWithSlash rem = true)
    (hff : f kw = .exn) :
    findProtected (r :: rest) p = some (r.pfx ++ r.pat.toStr) := by
  simp only [findProtected]
  rw [hm]
  have hcond : (!endsWithSlash r.pat.toStr
      && (!rem.isEmpty && !startsWithSlash rem)) = false := by
    rcases hb with hb | hb | hb <;> simp [hb]
  simp [hcond, hpf, hff]

/-- When every route's loop body skips, the scan yields nothing. -/
theorem findProtected_none_of_skipAll {reg : List Route} {p : Str}
    (h : ∀ r ∈ reg, skipOne r p = true) :
    findProtected reg p = none := by
  induction reg with
  | nil => rfl
  | cons r rest ih =>
    have hr := h r (List.mem_cons_self r rest)
    have ihr := ih (fun x hx => h x (List.mem_cons_of_mem r hx))
    simp only [skipOne] at hr
    simp only [findProtected]
    cases hm : r.pat.matchPath (removePfx r.pfx (lstripSlash p)) with
    | none => exact ihr
    | some pr =>
      obtain ⟨rem, kw⟩ := pr
      rw [hm] at hr
      dsimp only at hr ⊢
      cases hcond : (!endsWithSlash r.pat.toStr
          && (!rem.isEmpty && !startsWithSlash rem)) with
      | true => simp [hcond, ihr]
      | false =>
        simp only [hcond, Bool.false_eq_true, if_false] at hr ⊢
        cases hpf : r.protectFn with
        | none => rw [hpf] at hr; simp at hr
        | some f =>
          rw [hpf] at hr
          dsimp only at hr
          cases hffv : f kw with
          | ok b =>
            cases b with
            | false => simp [hpf, hffv, ihr]
            | true => rw [hffv] at hr; simp at hr
          | exn => rw [hffv] at hr; simp at hr

/-- The queryset row filter, written as the spec states validity. -/
theorem tokenOk_iff (t : AccessToken) (tok pp : Str) (now : Int) :
    tokenOk t tok pp now = true ↔
      t.token = tok ∧ t.isValid = true ∧ t.path = pp
        ∧ (t.expiresAt = none ∨ ∃ e, t.expiresAt = some e ∧ now < e)
        ∧ (t.maxUses = none ∨ ∃ m, t.maxUses = some m ∧ t.timesAccessed < m) := by
  unfold tokenOk
  cases he : t.expiresAt <;> cases hm : t.maxUses <;>
    simp [he, hm, Bool.and_assoc, and_assoc]

/-- A row passing the filter has exactly the candidate token value. -/
theorem tokenOk_token_eq {t : AccessToken} {tok pp : Str} {now : Int}
    (h : tokenOk t tok pp now = true) : t.token = tok := by
  exact ((tokenOk_iff t tok pp now).1 h).1

/-- The cookie scope path is the template text before the first `<`. -/
theorem cookiePathOf_takeWhile (pp : Str) :
    cookiePathOf pp = '/' :: pp.takeWhile (fun ch => !(ch == '<')) := by
  induction pp with
  | nil => rfl
  | cons c rest ih =>
    by_cases hc : c = '<'
    · subst hc
      simp [cookiePathOf, findLt, List.takeWhile_cons]
    · have hcb : (c == '<') = false := by simp [hc]
      simp only [cookiePathOf, findLt, hcb, Bool.false_eq_true, if_false,
        List.takeWhile_cons, Bool.not_false, if_true]
      cases hf : findLt rest with
      | none =>
        have ih' : rest = rest.takeWhile (fun ch => !(ch == '<')) := by
          simp only [cookiePathOf, hf] at ih
          simpa using ih
        simp [hf, ← ih']
      | some i =>
        have ih' : rest.take i = rest.takeWhile (fun ch => !(ch == '<')) := by
          simp only [cookiePathOf, hf] at ih
          simpa using ih
        simp [hf, List.take_succ_cons, ih']

/-- Mapping a guarded edit over rows touches none when no row passes. -/
theorem map_ite_id {α : Type} {P : α → Bool} {g : α → α} {l : List α}
    (h : ∀ u ∈ l, P u = false) :
    l.map (fun x => if P x then g x else x) = l := by
  induction l with
  | nil => rfl
  | cons a l ih =>
    have ha := h a (List.mem_cons_self a l)
    simp [ha, ih (fun u hu => h u (List.mem_cons_of_mem a hu))]

/-- Mapping a guarded edit that fires on exactly index `i` is `set`. -/
theorem map_ite_eq_set {α : Type} {P : α → Bool} {g : α → α} {l : List α}
    {i : Nat} {t : α} (hget : l[i]? = some t) (hP : P t = true)
    (hothers : ∀ j u, j ≠ i → l[j]? = some u → P u = false) :
    l.map (fun x => if P x then g x else x) = l.set i (g t) := by
  induction l generalizing i with
  | nil => simp at hget
  | cons a l ih =>
    cases i with
    | zero =>
      have ha : a = t := by simpa using hget
      subst ha
      have hrest : ∀ u ∈ l, P u = false := by
        intro u hu
        obtain ⟨j, hj⟩ := List.mem_iff_getElem?.1 hu
        exact hothers (j + 1) u (by omega) (by simpa using hj)
      simp [hP, map_ite_id hrest]
    | succ i =>
      have ha : P a = false :=
        hothers 0 a (by omega) (by simp)
      have hg : l[i]? = some t := by simpa using hget
      have ho : ∀ j u, j ≠ i → l[j]? = some u → P u = false := by
        intro j u hj hju
        exact hothers (j + 1) u (by omega) (by simpa using hju)
      simp [ha, ih hg ho]

/-- A passing validation names a unique row when tokens are unique. -/
theorem existsValid_unique_row {db : List AccessToken} {tok pp : Str}
    {now : Int} (hex : existsValid db tok pp now = true)
    (hdist : db.Pairwise (fun a b => a.token ≠ b.token)) :
    ∃ (i : Nat) (t : AccessToken), db[i]? = some t
      ∧ tokenOk t tok pp now = true
      ∧ ∀ (j : Nat) (u : AccessToken), j ≠ i → db[j]? = some u →
          tokenOk u tok pp now = false := by
  obtain ⟨x, hxmem, hxok⟩ := List.any_eq_true.1 hex
  obtain ⟨i, hi⟩ := List.mem_iff_getElem?.1 hxmem
  refine ⟨i, x, hi, hxok, ?_⟩
  intro j u hj hju
  by_contra hcon
  have huok : tokenOk u tok pp now = true := by
    cases h : tokenOk u tok pp now with
    | true => rfl
    | false => exact absurd h hcon
  have hxi : ∃ h : i < db.length, db[i] = x := List.getElem?_eq_some_iff.1 hi
  have huj : ∃ h : j < db.length, db[j] = u := List.getElem?_eq_some_iff.1 hju
  obtain ⟨hil, hix⟩ := hxi
  obtain ⟨hjl, hjx⟩ := huj
  have hpair := List.pairwise_iff_getElem.1 hdist
  have hne : u.token ≠ x.token ∨ x.token ≠ u.token := by
    rcases Nat.lt_or_ge j i with hlt | hge
    · exact Or.inl (hjx ▸ hix ▸ hpair j i hjl hil hlt)
    · have hlt : i < j := by omega
      exact Or.inr (hix ▸ hjx ▸ hpair i j hil hjl hlt)
  have hxt := tokenOk_token_eq hxok
  have hut := tokenOk_token_eq huok
  rcases hne with hne | hne <;> exact hne (by rw [hxt, hut])

/-- lstrip("/") on a slash followed by a non-slash drops only the slash. -/
theorem lstripSlash_slash_cons {c : Char} (hc : c ≠ '/') (s : Str) :
    lstripSlash ('/' :: c :: s) = c :: s := by
  simp [lstripSlash, List.dropWhile_cons, hc]

/-- removeprefix with an empty registration prefix is the identity. -/
theorem removePfx_nil (s : Str) : removePfx [] s = s := by
  simp [removePfx]

/-- A static non-endpoint pattern consumes its literal text and leaves
the rest of the path as the remaining suffix. -/
theorem matchPath_lit_append (l stuff : Str) :
    (litPat l).matchPath (l ++ stuff) = some (stuff, []) := by
  simp only [litPat, RoutePattern.matchPath, matchSegs,
    List.isPrefixOf_iff_prefix, List.prefix_append, if_true, List.drop_left]
  simp [matchSegs]

/-- str(pattern) of a static pattern is its literal text. -/
theorem toStr_lit (l : Str) : (litPat l).toStr = l := by
  simp [litPat, RoutePattern.toStr, segStr]

/-- C1 is false on the code: `str.removeprefix` silently returns the
path unchanged when the registration prefix is not a literal front of
it, so the pattern is then matched against the whole slash-stripped
path and the route can still win. Concretely, with `secret/` registered
under prefix `api/v1/`, the request path `/secret/` does not start with
the prefix, yet the route determines protected path `api/v1/secret/`. -/
theorem c1_counterexample :
    "api/v1/".data.isPrefixOf (lstripSlash "/secret/".data) = false
    ∧ findProtected regC1 "/secret/".data = some "api/v1/secret/".data := by
  decide

/-- C1 amended: the matcher strips the path's leading slashes and
removes `prefix` only when the slash-stripped path starts with it; when
it does not, the prefix is left in place and the pattern is matched
against the entire slash-stripped path, so the route is skipped only if
that match fails (and it can win, with canonical path
`prefix + str(pattern)`, when the match succeeds). -/
theorem c1_prop : ∀ (r : Route) (rest : List Route) (p : Str),
    r.pfx.isPrefixOf (lstripSlash p) = false →
    ((r.pat.matchPath (lstripSlash p) = none →
        findProtected (r :: rest) p = findProtected rest p)
      ∧ (∀ (rem : Str) (kw : List (Str × Val)),
          r.pat.matchPath (lstripSlash p) = some (rem, kw) →
          (endsWithSlash r.pat.toStr = true ∨ rem = []
            ∨ startsWithSlash rem = true) →
          r.protectFn = none →
          findProtected (r :: rest) p = some (r.pfx ++ r.pat.toStr))) := by
  intro r rest p h
  have hrp : removePfx r.pfx (lstripSlash p) = lstripSlash p := by
    simp [removePfx, h]
  constructor
  · intro hm
    exact findProtected_skip_match (by rw [hrp]; exact hm)
  · intro rem kw hm hb hpn
    exact findProtected_accept (by rw [hrp]; exact hm) hb hpn

/-- C1 witness: the amended theorem applied to the counterexample
registry, showing the route with unmatched prefix `api/v1/` still
protects `/secret/`. -/
theorem c1_witness :
    "api/v1/".data.isPrefixOf (lstripSlash "/secret/".data) = false
    ∧ findProtected [⟨"api/v1/".data, litPat "secret/".data, none⟩]
        "/secret/".data = some "api/v1/secret/".data := by
  constructor
  · decide
  · exact ((c1_prop ⟨"api/v1/".data, litPat "secret/".data, none⟩ []
      "/secret/".data (by decide)).2 [] [] (by decide)
      (Or.inr (Or.inl rfl)) rfl).trans (by decide)

/-- C2: a match whose suffix is non-empty and does not start with a
slash is rejected when the template lacks a trailing slash; an empty
suffix, a suffix starting with a slash, or a trailing-slash template is
accepted. Hence a static pattern (head character not a slash, no
trailing slash) protects `/p` and `/p/sub` but not `/p-extra`. -/
theorem c2_prop :
    (∀ (r : Route) (rest : List Route) (p rem : Str) (kw : List (Str × Val)),
        r.pat.matchPath (removePfx r.pfx (lstripSlash p)) = some (rem, kw) →
        endsWithSlash r.pat.toStr = false → rem ≠ [] →
        startsWithSlash rem = false →
        findProtected (r :: rest) p = findProtected rest p)
    ∧ (∀ (r : Route) (rest : List Route) (p rem : Str) (kw : List (Str × Val)),
        r.pat.matchPath (removePfx r.pfx (lstripSlash p)) = some (rem, kw) →
        r.protectFn = none →
        (endsWithSlash r.pat.toStr = true ∨ rem = []
          ∨ startsWithSlash rem = true) →
        findProtected (r :: rest) p = some (r.pfx ++ r.pat.toStr))
    ∧ (∀ (c : Char) (p sub extra : Str), c ≠ '/' →
        endsWithSlash (c :: p) = false → extra ≠ [] →
        extra.head? ≠ some '/' →
        (findProtected [⟨[], litPat (c :: p), none⟩] ('/' :: c :: p)
            = some (c :: p)
          ∧ findProtected [⟨[], litPat (c :: p), none⟩]
              (('/' :: c :: p) ++ '/' :: sub) = some (c :: p)
          ∧ findProtected [⟨[], litPat (c :: p), none⟩]
              (('/' :: c :: p) ++ extra) = none)) := by
  refine ⟨?_, ?_, ?_⟩
  · intro r rest p rem kw hm h1 h2 h3
    exact findProtected_skip_boundary hm h1 h2 h3
  · intro r rest p rem kw hm hpn hb
    exact findProtected_accept hm hb hpn
  · intro c p sub extra hc hend hne hhead
    refine ⟨?_, ?_, ?_⟩
    · have hm : (litPat (c :: p)).matchPath
          (removePfx ([] : Str) (lstripSlash ('/' :: c :: p)))
          = some ([], []) := by
        rw [removePfx_nil, lstripSlash_slash_cons hc]
        have h := matchPath_lit_append (c :: p) []
        simpa using h
      exact (findProtected_accept hm (Or.inr (Or.inl rfl)) rfl).trans
        (by rw [toStr_lit]; simp)
    · have hm : (litPat (c :: p)).matchPath
          (removePfx ([] : Str) (lstripSlash (('/' :: c :: p) ++ '/' :: sub)))
          = some ('/' :: sub, []) := by
        have he : ('/' :: c :: p) ++ '/' :: sub
            = '/' :: c :: (p ++ '/' :: sub) := by simp
        rw [he, removePfx_nil, lstripSlash_slash_cons hc]
        have h := matchPath_lit_append (c :: p) ('/' :: sub)
        simpa using h
      exact (findProtected_accept hm
        (Or.inr (Or.inr (by simp [startsWithSlash]))) rfl).trans
        (by rw [toStr_lit]; simp)
    · have hm : (litPat (c :: p)).matchPath
          (removePfx ([] : Str) (lstripSlash (('/' :: c :: p) ++ extra)))
          = some (extra, []) := by
        have he : ('/' :: c :: p) ++ extra = '/' :: c :: (p ++ extra) := by
          simp
        rw [he, removePfx_nil, lstripSlash_slash_cons hc]
        have h := matchPath_lit_append (c :: p) extra
        simpa using h
      exact (findProtected_skip_boundary hm
        (by rw [toStr_lit]; exact hend) hne
        (by simp only [startsWithSlash]; exact beq_eq_false_iff_ne.mpr hhead)).trans
        rfl

/-- C2 witness: the static pattern `admin` protects `/admin` and
`/admin/users/` but not `/admin-panel/`. -/
theorem c2_witness :
    findProtected [⟨[], litPat ('a' :: "dmin".data), none⟩]
        ('/' :: 'a' :: "dmin".data) = some ('a' :: "dmin".data)
    ∧ findProtected [⟨[], litPat ('a' :: "dmin".data), none⟩]
        (('/' :: 'a' :: "dmin".data) ++ '/' :: "users/".data)
        = some ('a' :: "dmin".data)
    ∧ findProtected [⟨[], litPat ('a' :: "dmin".data), none⟩]
        (('/' :: 'a' :: "dmin".data) ++ "-panel/".data) = none := by
  exact c2_prop.2.2 'a' "dmin".data "users/".data "-panel/".data
    (by decide) (by decide) (by decide) (by decide)

/-- C4: a protect function returning a falsy value skips its route; a
protect function that raises leaves the route matched (fail safe), and
a protected request without any candidate token is denied with reason
no_token, never silently allowed. -/
theorem c4_prop :
    (∀ (r : Route) (rest : List Route) (p rem : Str) (kw : List (Str × Val))
        (f : List (Str × Val) → PredOut),
        r.protectFn = some f →
        r.pat.matchPath (removePfx r.pfx (lstripSlash p)) = some (rem, kw) →
        f kw = .ok false →
        findProtected (r :: rest) p = findProtected rest p)
    ∧ (∀ (r : Route) (rest : List Route) (p rem : Str) (kw : List (Str × Val))
        (f : List (Str × Val) → PredOut),
        r.protectFn = some f →
        r.pat.matchPath (removePfx r.pfx (lstripSlash p)) = some (rem, kw) →
        (endsWithSlash r.pat.toStr = true ∨ rem = []
          ∨ startsWithSlash rem = true) →
        f kw = .exn →
        findProtected (r :: rest) p = some (r.pfx ++ r.pat.toStr))
    ∧ (∀ (reg : List Route) (st : Settings) (db : List AccessToken)
        (req : Request) (now now' : Int) (pp : Str),
        findProtected reg req.path = some pp → pp ≠ [] →
        pyOr (qdGet req.query st.tokenParam)
            (List.lookup (st.cookiePfx ++ pyQuote pp) req.cookies) = none →
        middleware reg st db req now now' = (⟨.forbidden noTokenR, []⟩, db)) := by
  refine ⟨?_, ?_, ?_⟩
  · intro r rest p rem kw f hpf hm hff
    exact findProtected_pred_false hpf hm hff
  · intro r rest p rem kw f hpf hm hb hff
    exact findProtected_pred_exn hpf hm hb hff
  · intro reg st db req now now' pp hf hne h
    exact (middleware_protected hf hne).trans (protectedStep_noToken h)

/-- C4 witness: a falsy protect function leaves `/x/` unprotected, a
raising one protects it, and the protected request with no token at all
is denied with no_token. -/
theorem c4_witness :
    findProtected [⟨[], litPat "x/".data, some (fun _ => PredOut.ok false)⟩]
        "/x/".data = none
    ∧ findProtected [⟨[], litPat "x/".data, some (fun _ => PredOut.exn)⟩]
        "/x/".data = some "x/".data
    ∧ middleware [⟨[], litPat "x/".data, some (fun _ => PredOut.exn)⟩] st0 []
        ⟨"/x/".data, [], []⟩ 0 0 = (⟨.forbidden noTokenR, []⟩, []) := by
  refine ⟨?_, ?_, ?_⟩
  · exact (c4_prop.1 ⟨[], litPat "x/".data, some (fun _ => PredOut.ok false)⟩
      [] "/x/".data [] [] (fun _ => PredOut.ok false) rfl (by decide) rfl).trans
      rfl
  · exact (c4_prop.2.1 ⟨[], litPat "x/".data, some (fun _ => PredOut.exn)⟩
      [] "/x/".data [] [] (fun _ => PredOut.exn) rfl (by decide)
      (Or.inr (Or.inl rfl)) rfl).trans (by decide)
  · exact c4_prop.2.2 [⟨[], litPat "x/".data, some (fun _ => PredOut.exn)⟩]
      st0 [] ⟨"/x/".data, [], []⟩ 0 0 "x/".data (by decide) (by decide)
      (by decide)

/-- C6: when every registered route's loop body skips the request path
(match failure, boundary rejection, or falsy protect function), the
middleware returns the underlying handler's response unchanged, with
no cookie set and no database change — no token required. -/
theorem c6_prop : ∀ (reg : List Route) (st : Settings)
    (db : List AccessToken) (req : Request) (now now' : Int),
    (∀ r ∈ reg, skipOne r req.path = true) →
    middleware reg st db req now now' = (⟨.fromHandler, []⟩, db) := by
  intro reg st db req now now' h
  unfold middleware
  rw [findProtected_none_of_skipAll h]

/-- C6 witness: `/public/` is passed straight through when only
`protected/` is registered. -/
theorem c6_witness :
    middleware reg0 st0 [tok0] ⟨"/public/".data, [], []⟩ 0 0
      = (⟨.fromHandler, []⟩, [tok0]) := by
  exact c6_prop reg0 st0 [tok0] ⟨"/public/".data, [], []⟩ 0 0 (by decide)

/-- C3: with a candidate token present on a protected path, validation
succeeds exactly when a stored row has this token value, is_valid,
exactly this canonical path, unexpired (unset or strictly later than
now), and under its use limit (unset or strictly more than
times_accessed); when validation fails the request is denied with
reason invalid_token and the database is untouched. -/
theorem c3_prop : ∀ (reg : List Route) (st : Settings)
    (db : List AccessToken) (req : Request) (now now' : Int) (pp tok : Str),
    findProtected reg req.path = some pp → pp ≠ [] →
    pyOr (qdGet req.query st.tokenParam)
        (List.lookup (st.cookiePfx ++ pyQuote pp) req.cookies) = some tok →
    ((existsValid db tok pp now = true ↔
        ∃ t ∈ db, t.token = tok ∧ t.isValid = true ∧ t.path = pp
          ∧ (t.expiresAt = none ∨ ∃ e : Int, t.expiresAt = some e ∧ now < e)
          ∧ (t.maxUses = none
              ∨ ∃ m : Int, t.maxUses = some m ∧ t.timesAccessed < m))
      ∧ (existsValid db tok pp now = false →
          middleware reg st db req now now'
            = (⟨.forbidden invalidTokenR, []⟩, db))) := by
  intro reg st db req now now' pp tok hf hne h
  constructor
  · unfold existsValid
    rw [List.any_eq_true]
    constructor
    · rintro ⟨t, ht, hok⟩
      exact ⟨t, ht, (tokenOk_iff t tok pp now).1 hok⟩
    · rintro ⟨t, ht, hok⟩
      exact ⟨t, ht, (tokenOk_iff t tok pp now).2 hok⟩
  · intro hv
    exact (middleware_protected hf hne).trans (protectedStep_invalid h hv)

/-- C3 witness: the token value `bad` matches no row, so `/protected/`
is denied with invalid_token and the table is unchanged. -/
theorem c3_witness :
    middleware reg0 st0 [tok0]
        ⟨"/protected/".data, [("token".data, "bad".data)], []⟩ 0 0
      = (⟨.forbidden invalidTokenR, []⟩, [tok0]) := by
  exact (c3_prop reg0 st0 [tok0]
    ⟨"/protected/".data, [("token".data, "bad".data)], []⟩ 0 0
    "protected/".data "bad".data (by decide) (by decide) (by decide)).2
    (by decide)

/-- C5: a valid non-empty query-parameter token yields a redirect to
the same path whose query keeps exactly the non-token parameters (the
popped QueryDict re-encoded), with the scoped cookie set; a valid token
arriving via cookie only yields the underlying handler's response (no
redirect), also with the cookie set. -/
theorem c5_prop : ∀ (reg : List Route) (st : Settings)
    (db : List AccessToken) (req : Request) (now now' : Int) (pp s : Str),
    findProtected reg req.path = some pp → pp ≠ [] →
    ((qdGet req.query st.tokenParam = some s → s ≠ [] →
        existsValid db s pp now = true →
        (middleware reg st db req now now').1 =
          ⟨.redirect (req.path ++
              (if (qdPop req.query st.tokenParam).isEmpty then []
               else '?' :: urlencodeQD (qdPop req.query st.tokenParam))),
            [mkCookie st (st.cookiePfx ++ pyQuote pp) s pp]⟩)
      ∧ (∀ kv : Str × Str, kv ∈ qdPop req.query st.tokenParam ↔
          kv ∈ req.query ∧ kv.1 ≠ st.tokenParam)
      ∧ (qdGet req.query st.tokenParam = none →
          List.lookup (st.cookiePfx ++ pyQuote pp) req.cookies = some s →
          existsValid db s pp now = true →
          (middleware reg st db req now now').1 =
            ⟨.fromHandler, [mkCookie st (st.cookiePfx ++ pyQuote pp) s pp]⟩)) := by
  intro reg st db req now now' pp s hf hne
  refine ⟨?_, ?_, ?_⟩
  · intro hq hs hv
    rw [middleware_protected hf hne]
    exact protectedStep_grant_query hq hs hv
  · intro kv
    simp [qdPop]
  · intro hq hc hv
    rw [middleware_protected hf hne]
    exact protectedStep_grant_cookie hq hc hv

/-- C5 witness: the valid query token is stripped from the redirect
location while `foo=bar` and `baz=qux` survive. -/
theorem c5_witness :
    (middleware reg0 st0 [tok0]
        ⟨"/protected/".data,
          [("foo".data, "bar".data), ("token".data, "abc".data),
            ("baz".data, "qux".data)], []⟩ 0 0).1
      = ⟨.redirect "/protected/?foo=bar&baz=qux".data,
          [mkCookie st0 (st0.cookiePfx ++ pyQuote "protected/".data)
            "abc".data "protected/".data]⟩ := by
  exact ((c5_prop reg0 st0 [tok0]
    ⟨"/protected/".data,
      [("foo".data, "bar".data), ("token".data, "abc".data),
        ("baz".data, "qux".data)], []⟩ 0 0 "protected/".data "abc".data
    (by decide) (by decide)).1 (by decide) (by decide) (by decide)).trans
    (by decide)

/-- C7 is false on the code at one edge: `query_token or cookie` uses
Python truthiness, so a present-but-empty query parameter (`?token=`)
falls back to the cookie. Here the query parameter is present (value
empty) and the valid cookie is consulted and grants the request. -/
theorem c7_counterexample :
    qdGet [(("token".data : Str), ([] : Str))] st0.tokenParam = some []
    ∧ pyOr (qdGet [(("token".data : Str), ([] : Str))] st0.tokenParam)
        (List.lookup (st0.cookiePfx ++ pyQuote "protected/".data)
          [("django_magic_authorization_protected%2F".data, "abc".data)])
      = some "abc".data
    ∧ (middleware reg0 st0 [tok0]
        ⟨"/protected/".data, [(("token".data : Str), ([] : Str))],
          [("django_magic_authorization_protected%2F".data, "abc".data)]⟩
        0 0).1.base = .fromHandler := by
  decide

/-- C7 amended: the candidate is the query parameter's value when that
value is present and non-empty; the cookie is consulted exactly when
the query parameter is absent or empty; a valid non-empty query token
grants access regardless of any cookie; and when the combined lookup
yields no candidate the request is denied with reason no_token. -/
theorem c7_prop : ∀ (reg : List Route) (st : Settings)
    (db : List AccessToken) (req : Request) (now now' : Int) (pp : Str),
    findProtected reg req.path = some pp → pp ≠ [] →
    ((∀ s : Str, qdGet req.query st.tokenParam = some s → s ≠ [] →
        pyOr (qdGet req.query st.tokenParam)
            (List.lookup (st.cookiePfx ++ pyQuote pp) req.cookies) = some s)
      ∧ ((qdGet req.query st.tokenParam = none
            ∨ qdGet req.query st.tokenParam = some []) →
          pyOr (qdGet req.query st.tokenParam)
              (List.lookup (st.cookiePfx ++ pyQuote pp) req.cookies)
            = List.lookup (st.cookiePfx ++ pyQuote pp) req.cookies)
      ∧ (pyOr (qdGet req.query st.tokenParam)
            (List.lookup (st.cookiePfx ++ pyQuote pp) req.cookies) = none →
          middleware reg st db req now now'
            = (⟨.forbidden noTokenR, []⟩, db))
      ∧ (∀ s : Str, qdGet req.query st.tokenParam = some s → s ≠ [] →
          existsValid db s pp now = true →
          (middleware reg st db req now now').1 =
            ⟨.redirect (req.path ++
                (if (qdPop req.query st.tokenParam).isEmpty then []
                 else '?' :: urlencodeQD (qdPop req.query st.tokenParam))),
              [mkCookie st (st.cookiePfx ++ pyQuote pp) s pp]⟩)) := by
  intro reg st db req now now' pp hf hne
  refine ⟨?_, ?_, ?_, ?_⟩
  · intro s hq hs
    rw [hq]
    simp [pyOr, hs]
  · rintro (hq | hq) <;> rw [hq] <;> simp [pyOr]
  · intro h
    exact (middleware_protected hf hne).trans (protectedStep_noToken h)
  · intro s hq hs hv
    rw [middleware_protected hf hne]
    exact protectedStep_grant_query hq hs hv

/-- C7 witness: no query token and no cookie is denied with no_token,
and a valid query token wins over a simultaneously present invalid
cookie (the request redirects). -/
theorem c7_witness :
    middleware reg0 st0 [tok0] ⟨"/protected/".data, [], []⟩ 0 0
      = (⟨.forbidden noTokenR, []⟩, [tok0])
    ∧ (middleware reg0 st0 [tok0]
        ⟨"/protected/".data, [("token".data, "abc".data)],
          [("django_magic_authorization_protected%2F".data, "bad".data)]⟩
        0 0).1
      = ⟨.redirect "/protected/".data,
          [mkCookie st0 (st0.cookiePfx ++ pyQuote "protected/".data)
            "abc".data "protected/".data]⟩ := by
  constructor
  · exact (c7_prop reg0 st0 [tok0] ⟨"/protected/".data, [], []⟩ 0 0
      "protected/".data (by decide) (by decide)).2.2.1 (by decide)
  · exact ((c7_prop reg0 st0 [tok0]
      ⟨"/protected/".data, [("token".data, "abc".data)],
        [("django_magic_authorization_protected%2F".data, "bad".data)]⟩
      0 0 "protected/".data (by decide) (by decide)).2.2.2 "abc".data
      (by decide) (by decide) (by decide)).trans (by decide)

/-- C8: every granted request gets exactly one cookie, keyed by the
configured prefix plus the URL-escaped canonical path, scoped to the
root slash plus the template text before the first `<` — the whole
canonical path when there is no dynamic segment, and `/` when the
template starts with one. -/
theorem c8_prop : ∀ (reg : List Route) (st : Settings)
    (db : List AccessToken) (req : Request) (now now' : Int) (pp tok : Str),
    findProtected reg req.path = some pp → pp ≠ [] →
    pyOr (qdGet req.query st.tokenParam)
        (List.lookup (st.cookiePfx ++ pyQuote pp) req.cookies) = some tok →
    existsValid db tok pp now = true →
    ((middleware reg st db req now now').1.setCookies
        = [mkCookie st (st.cookiePfx ++ pyQuote pp) tok pp]
      ∧ (mkCookie st (st.cookiePfx ++ pyQuote pp) tok pp).key
          = st.cookiePfx ++ pyQuote pp
      ∧ (mkCookie st (st.cookiePfx ++ pyQuote pp) tok pp).path
          = '/' :: pp.takeWhile (fun ch => !(ch == '<'))
      ∧ (findLt pp = none →
          (mkCookie st (st.cookiePfx ++ pyQuote pp) tok pp).path = '/' :: pp)
      ∧ (pp.head? = some '<' →
          (mkCookie st (st.cookiePfx ++ pyQuote pp) tok pp).path = ['/'])) := by
  intro reg st db req now now' pp tok hf hne h hv
  refine ⟨?_, rfl, ?_, ?_, ?_⟩
  · rw [middleware_protected hf hne]
    exact protectedStep_grant_cookies h hv
  · exact cookiePathOf_takeWhile pp
  · intro hn
    simp [mkCookie, cookiePathOf, hn]
  · intro hh
    cases pp with
    | nil => simp at hh
    | cons a rest =>
      have ha : a = '<' := by simpa using hh
      subst ha
      simp [mkCookie, cookiePathOf, findLt]

/-- C8 witness: the blog template's cookie is scoped to `/blog/`. -/
theorem c8_witness :
    (middleware regB st0 [tokB]
        ⟨"/blog/2024/my-post/".data, [("token".data, "tkB".data)], []⟩
        0 0).1.setCookies
      = [mkCookie st0 (st0.cookiePfx ++ pyQuote ppBlog) "tkB".data ppBlog]
    ∧ (mkCookie st0 (st0.cookiePfx ++ pyQuote ppBlog) "tkB".data ppBlog).path
      = "/blog/".data := by
  have h := c8_prop regB st0 [tokB]
    ⟨"/blog/2024/my-post/".data, [("token".data, "tkB".data)], []⟩ 0 0
    ppBlog "tkB".data (by decide) (by decide) (by decide) (by decide)
  exact ⟨h.1, h.2.2.1.trans (by decide)⟩

/-- C9: the usage update happens exactly on successful validation — on
unprotected requests and on both denials the table is unchanged, and on
a grant exactly the matched row (unique once token values are distinct)
is replaced by its bump: times_accessed + 1, last_accessed set to the
update-time clock reading, every other row untouched. -/
theorem c9_prop : ∀ (reg : List Route) (st : Settings)
    (db : List AccessToken) (req : Request) (now now' : Int),
    ((findProtected reg req.path = none →
        (middleware reg st db req now now').2 = db)
      ∧ (∀ pp : Str, findProtected reg req.path = some pp → pp ≠ [] →
          pyOr (qdGet req.query st.tokenParam)
              (List.lookup (st.cookiePfx ++ pyQuote pp) req.cookies) = none →
          (middleware reg st db req now now').2 = db)
      ∧ (∀ pp tok : Str, findProtected reg req.path = some pp → pp ≠ [] →
          pyOr (qdGet req.query st.tokenParam)
              (List.lookup (st.cookiePfx ++ pyQuote pp) req.cookies)
            = some tok →
          existsValid db tok pp now = false →
          (middleware reg st db req now now').2 = db)
      ∧ (∀ (pp tok : Str) (i : Nat) (t : AccessToken),
          findProtected reg req.path = some pp → pp ≠ [] →
          pyOr (qdGet req.query st.tokenParam)
              (List.lookup (st.cookiePfx ++ pyQuote pp) req.cookies)
            = some tok →
          existsValid db tok pp now = true →
          db[i]? = some t → tokenOk t tok pp now = true →
          (∀ (j : Nat) (u : AccessToken), j ≠ i → db[j]? = some u →
            tokenOk u tok pp now = false) →
          (middleware reg st db req now now').2 = db.set i (bump t now'))
      ∧ (∀ pp tok : Str, findProtected reg req.path = some pp → pp ≠ [] →
          pyOr (qdGet req.query st.tokenParam)
              (List.lookup (st.cookiePfx ++ pyQuote pp) req.cookies)
            = some tok →
          existsValid db tok pp now = true →
          db.Pairwise (fun a b => a.token ≠ b.token) →
          ∃ (i : Nat) (t : AccessToken), db[i]? = some t
            ∧ tokenOk t tok pp now = true
            ∧ (middleware reg st db req now now').2
                = db.set i (bump t now'))) := by
  intro reg st db req now now'
  refine ⟨?_, ?_, ?_, ?_, ?_⟩
  · intro h
    unfold middleware
    rw [h]
  · intro pp hf hne h
    rw [middleware_protected hf hne, protectedStep_noToken h]
  · intro pp tok hf hne h hv
    rw [middleware_protected hf hne, protectedStep_invalid h hv]
  · intro pp tok i t hf hne h hv hget hok hothers
    rw [middleware_protected hf hne, protectedStep_grant_snd h hv]
    exact map_ite_eq_set hget hok hothers
  · intro pp tok hf hne h hv hdist
    obtain ⟨i, t, h1, h2, h3⟩ := existsValid_unique_row hv hdist
    refine ⟨i, t, h1, h2, ?_⟩
    rw [middleware_protected hf hne, protectedStep_grant_snd h hv]
    exact map_ite_eq_set h1 h2 h3

/-- C9 witness: a denied request leaves the table unchanged and a
granted one bumps exactly the single matching row. -/
theorem c9_witness :
    (middleware reg0 st0 [tok0] ⟨"/public/".data, [], []⟩ 0 0).2 = [tok0]
    ∧ (middleware reg0 st0 [tok0]
        ⟨"/protected/".data, [("token".data, "abc".data)], []⟩ 0 5).2
      = [tok0].set 0 (bump tok0 5) := by
  constructor
  · exact (c9_prop reg0 st0 [tok0] ⟨"/public/".data, [], []⟩ 0 0).1
      (by decide)
  · exact (c9_prop reg0 st0 [tok0]
      ⟨"/protected/".data, [("token".data, "abc".data)], []⟩ 0 5).2.2.2.1
      "protected/".data "abc".data 0 tok0 (by decide) (by decide) (by decide)
      (by decide) (by decide) (by decide)
      (by
        intro j u hj hju
        cases j with
        | zero => exact absurd rfl hj
        | succ n => simp at hju)

/-- C10 (implicit): a grant whose valid token arrived via cookie only
still sets the authorization cookie on the handler's response, with the
same token value and the configured max-age — each cookie-authenticated
access renews the cookie's lifetime. -/
theorem c10_prop : ∀ (reg : List Route) (st : Settings)
    (db : List AccessToken) (req : Request) (now now' : Int) (pp s : Str),
    findProtected reg req.path = some pp → pp ≠ [] →
    qdGet req.query st.tokenParam = none →
    List.lookup (st.cookiePfx ++ pyQuote pp) req.cookies = some s →
    existsValid db s pp now = true →
    ((middleware reg st db req now now').1
        = ⟨.fromHandler, [mkCookie st (st.cookiePfx ++ pyQuote pp) s pp]⟩
      ∧ (mkCookie st (st.cookiePfx ++ pyQuote pp) s pp).maxAge
          = st.cookieMaxAge
      ∧ (mkCookie st (st.cookiePfx ++ pyQuote pp) s pp).value = s) := by
  intro reg st db req now now' pp s hf hne hq hc hv
  refine ⟨?_, rfl, rfl⟩
  rw [middleware_protected hf hne]
  exact protectedStep_grant_cookie hq hc hv

/-- C10 witness: a cookie-only grant re-sets the cookie with the
default one-year max-age. -/
theorem c10_witness :
    (middleware reg0 st0 [tok0]
        ⟨"/protected/".data, [],
          [("django_magic_authorization_protected%2F".data, "abc".data)]⟩
        0 0).1
      = ⟨.fromHandler,
          [mkCookie st0 (st0.cookiePfx ++ pyQuote "protected/".data)
            "abc".data "protected/".data]⟩
    ∧ (mkCookie st0 (st0.cookiePfx ++ pyQuote "protected/".data) "abc".data
        "protected/".data).maxAge = 31536000 := by
  have h := c10_prop reg0 st0 [tok0]
    ⟨"/protected/".data, [],
      [("django_magic_authorization_protected%2F".data, "abc".data)]⟩ 0 0
    "protected/".data "abc".data (by decide) (by decide) (by decide)
    (by decide) (by decide)
  exact ⟨h.1, h.2.1.trans (by decide)⟩

end MagicAuth
